import Mathlib

/- Verification of the cert-code normalization layer: the unified-diff parser,
   the language detector, the tool-output normalizers and the verification
   builder, shallowly embedded from the Python sources in cert_code/. -/

namespace CertCode

/-- The closed language enumeration from models.py. -/
inductive Language where
  | python | javascript | typescript | go | rust | java | c | cpp | csharp
  | ruby | php | swift | kotlin | scala | shell | sql | html | css | other
  deriving DecidableEq, Repr

/-- DiffStats from models.py (additions, deletions, files_changed). -/
structure DiffStats where
  additions : Nat
  deletions : Nat
  files_changed : Nat
  deriving DecidableEq, Repr

/-- CodeArtifact from models.py (raw_content omitted: never set by parse_diff). -/
structure CodeArtifact where
  diff : String
  files_changed : List String
  language : Language
  diff_stats : DiffStats
  deriving DecidableEq, Repr

/-- Python str.split with separator a single newline, on a character list:
splitting never drops empty pieces and the empty string splits to one
empty piece, exactly as in Python. -/
def splitNl : List Char → List (List Char)
  | [] => [[]]
  | c :: cs =>
    match splitNl cs with
    | [] => [[]]
    | l :: ls => if c = '\n' then [] :: l :: ls else (c :: l) :: ls

/-- Python str.startswith on character lists. -/
def beginsWith : List Char → List Char → Bool
  | [], _ => true
  | _ :: _, [] => false
  | p :: ps, c :: cs => p == c && beginsWith ps cs

/-- Characters after the last dot (Python path.rsplit with dot, last piece);
the whole input when no dot is present. -/
def afterLastDot (cs : List Char) : List Char :=
  (cs.reverse.takeWhile (fun c => c ≠ '.')).reverse

/-- EXTENSION_LANGUAGE_MAP from analyzers/diff.py. -/
def extensionLanguageMap : List (List Char × Language) :=
  [(".py".data, .python), (".pyi".data, .python),
   (".js".data, .javascript), (".mjs".data, .javascript),
   (".cjs".data, .javascript), (".jsx".data, .javascript),
   (".ts".data, .typescript), (".tsx".data, .typescript),
   (".go".data, .go), (".rs".data, .rust), (".java".data, .java),
   (".c".data, .c), (".h".data, .c),
   (".cpp".data, .cpp), (".cc".data, .cpp), (".cxx".data, .cpp),
   (".hpp".data, .cpp), (".cs".data, .csharp), (".rb".data, .ruby),
   (".php".data, .php), (".swift".data, .swift),
   (".kt".data, .kotlin), (".kts".data, .kotlin), (".scala".data, .scala),
   (".sh".data, .shell), (".bash".data, .shell), (".zsh".data, .shell),
   (".sql".data, .sql), (".html".data, .html), (".htm".data, .html),
   (".css".data, .css), (".scss".data, .css), (".sass".data, .css),
   (".less".data, .css)]

/-- The lowercased dotted extension of a path (Python: a dot prepended to the
lowercased piece after the last dot). -/
def extOf (path : List Char) : List Char :=
  '.' :: (afterLastDot path).map Char.toLower

/-- detect_language from analyzers/diff.py, on a character list. -/
def detectLanguageCore (path : List Char) : Language :=
  if '.' ∈ path then
    match extensionLanguageMap.find? (fun p => p.1 == extOf path) with
    | some p => p.2
    | none => Language.other
  else Language.other

/-- detect_language from analyzers/diff.py. -/
def detect_language (path : String) : Language :=
  detectLanguageCore path.data

/-- The priority_extensions set from detect_primary_language. -/
def priorityExtensions : List (List Char) :=
  [".py".data, ".js".data, ".ts".data, ".go".data, ".rs".data, ".java".data,
   ".c".data, ".cpp".data, ".cs".data, ".rb".data, ".php".data,
   ".swift".data, ".kt".data, ".scala".data]

/-- One in-place update of the insertion-ordered language_counts mapping:
language_counts[lang] = language_counts.get(lang, 0) + w. -/
def updateCount (counts : List (Language × Nat)) (lang : Language) (w : Nat) :
    List (Language × Nat) :=
  match counts with
  | [] => [(lang, w)]
  | (k, v) :: rest =>
    if k = lang then (k, v + w) :: rest else (k, v) :: updateCount rest lang w

/-- The loop body of detect_primary_language: skip OTHER, weight priority
extensions by 2, accumulate into the ordered counts mapping. -/
def primaryStep (counts : List (Language × Nat)) (file : List Char) :
    List (Language × Nat) :=
  let lang := detectLanguageCore file
  if lang = Language.other then counts
  else
    let ext := if '.' ∈ file then extOf file else []
    let w := if ext ∈ priorityExtensions then 2 else 1
    updateCount counts lang w

/-- Python max over dict keys with the count as key function: the first key
(in insertion order) attaining the maximum wins; later keys replace the
current best only on a strictly greater count. -/
def firstMaxAux (best : Language × Nat) : List (Language × Nat) → Language
  | [] => best.1
  | (k, v) :: rest =>
    if v > best.2 then firstMaxAux (k, v) rest else firstMaxAux best rest

/-- detect_primary_language from analyzers/diff.py, on character lists. -/
def detectPrimaryLanguageCore (files : List (List Char)) : Language :=
  if files.isEmpty then Language.other
  else
    match files.foldl primaryStep [] with
    | [] => Language.other
    | c :: cs => firstMaxAux c cs

/-- detect_primary_language from analyzers/diff.py. -/
def detect_primary_language (files : List String) : Language :=
  detectPrimaryLanguageCore (files.map String.data)

/-- Searches the remainder of a header line (the part after the slash that
follows the letter a) for the last separator consisting of a space, the
letter b and a slash followed by a nonempty suffix, returning that suffix.
This is the greedy backtracking behavior of the DIFF_FILE_PATTERN regular
expression: the first capture group takes as much as it can while leaving a
nonempty second group. -/
def afterLastSepAux : List Char → Option (List Char)
  | [] => none
  | c :: cs =>
    match afterLastSepAux cs with
    | some r => some r
    | none =>
      if c = ' ' then
        match cs with
        | 'b' :: '/' :: r => if r.isEmpty then none else some r
        | _ => none
      else none

/-- The new-side path captured by DIFF_FILE_PATTERN on one line, when the
line matches; both capture groups must be nonempty. -/
def headerNewPath (line : List Char) : Option (List Char) :=
  if beginsWith "diff --git a/".data line then
    match line.drop 13 with
    | [] => none
    | _ :: cs => afterLastSepAux cs
  else none

/-- All new-side paths of header lines of a diff, in order of appearance. -/
def extractNewPaths (diff : List Char) : List (List Char) :=
  (splitNl diff).filterMap headerNewPath

/-- The deduplicating append of the file-collection loop in parse_diff:
a path already seen is skipped, a new one is appended. -/
def dedupAppend (seen : List (List Char)) (p : List Char) : List (List Char) :=
  if p ∈ seen then seen else seen ++ [p]

/-- The files_changed list built by parse_diff: header paths deduplicated in
first-seen order. -/
def filesChangedOf (diff : List Char) : List (List Char) :=
  (extractNewPaths diff).foldl dedupAppend []

/-- The addition test of parse_diff: the line starts with a plus sign and
does not start with the three-plus file-header marker. -/
def isAddLine (line : List Char) : Bool :=
  beginsWith "+".data line && !beginsWith "+++".data line

/-- The deletion test of parse_diff: the line starts with a minus sign and
does not start with the three-minus file-header marker. -/
def isDelLine (line : List Char) : Bool :=
  beginsWith "-".data line && !beginsWith "---".data line

/-- The addition/deletion counting loop of parse_diff: a line passing the
addition test counts as an addition, otherwise a line passing the deletion
test counts as a deletion. -/
def countStep (acc : Nat × Nat) (line : List Char) : Nat × Nat :=
  if isAddLine line then (acc.1 + 1, acc.2)
  else if isDelLine line then (acc.1, acc.2 + 1)
  else acc

/-- The two counters of parse_diff computed over all lines of the blob. -/
def diffCounts (diff : List Char) : Nat × Nat :=
  (splitNl diff).foldl countStep (0, 0)

/-- parse_diff from analyzers/diff.py: extract header paths, count added and
deleted lines, detect the language when no override is given. -/
def parse_diff (diff : String) (language : Option Language) : CodeArtifact :=
  let files := filesChangedOf diff.data
  let counts := diffCounts diff.data
  let lang :=
    match language with
    | some l => l
    | none => detectPrimaryLanguageCore files
  { diff := diff
    files_changed := files.map String.mk
    language := lang
    diff_stats :=
      { additions := counts.1
        deletions := counts.2
        files_changed := files.length } }

/-- The added_lines list built by extract_added_content: the payload of every
line starting with a plus sign but not three pluses, leading plus stripped. -/
def addedLinesCore (diff : List Char) : List (List Char) :=
  (splitNl diff).filterMap fun line =>
    if isAddLine line then some (line.drop 1) else none

/-- Python newline join of character-list lines. -/
def joinNl : List (List Char) → List Char
  | [] => []
  | [l] => l
  | l :: l' :: ls => l ++ '\n' :: joinNl (l' :: ls)

/-- The added lines of a diff as strings. -/
def addedLines (diff : String) : List String :=
  (addedLinesCore diff.data).map String.mk

/-- extract_added_content from analyzers/diff.py. -/
def extract_added_content (diff : String) : String :=
  String.mk (joinNl (addedLinesCore diff.data))

/-- First-seen deduplication, the specification-side description of the
file-collection loop: keep each path's first occurrence, drop the rest. -/
def dedupFS : List (List Char) → List (List Char)
  | [] => []
  | x :: xs => x :: dedupFS (xs.filter (fun y => y ≠ x))
  termination_by l => l.length
  decreasing_by
    simp only [List.length_cons]
    exact Nat.lt_succ_of_le (List.length_filter_le _ _)

lemma mem_dedupFS (l : List (List Char)) : ∀ a, a ∈ dedupFS l ↔ a ∈ l := by
  induction l using dedupFS.induct with
  | case1 => intro a; rw [dedupFS]
  | case2 x xs ih =>
    intro a
    rw [dedupFS]
    by_cases hax : a = x
    · subst hax; simp
    · simp only [List.mem_cons, ih, List.mem_filter]
      constructor
      · rintro (h | ⟨h, _⟩)
        · exact Or.inl h
        · exact Or.inr h
      · rintro (h | h)
        · exact Or.inl h
        · exact Or.inr ⟨h, by simp [hax]⟩

lemma nodup_dedupFS (l : List (List Char)) : (dedupFS l).Nodup := by
  induction l using dedupFS.induct with
  | case1 => rw [dedupFS]; exact List.nodup_nil
  | case2 x xs ih =>
    rw [dedupFS]
    refine List.nodup_cons.mpr ⟨?_, ih⟩
    intro hmem
    rw [mem_dedupFS] at hmem
    have := (List.mem_filter.mp hmem).2
    simp at this

lemma foldl_dedupAppend :
    ∀ (l acc : List (List Char)),
      l.foldl dedupAppend acc = acc ++ dedupFS (l.filter (fun x => x ∉ acc)) := by
  intro l
  induction l with
  | nil => intro acc; simp [dedupFS]
  | cons x xs ih =>
    intro acc
    rw [List.foldl_cons]
    by_cases hx : x ∈ acc
    · rw [show dedupAppend acc x = acc from if_pos hx, ih]
      congr 2
      rw [List.filter_cons]
      simp [hx]
    · rw [show dedupAppend acc x = acc ++ [x] from if_neg hx, ih]
      rw [List.filter_cons]
      have hkeep : (decide (x ∉ acc)) = true := by simp [hx]
      simp only [hkeep, if_pos]
      rw [dedupFS, List.append_assoc, List.singleton_append]
      congr 3
      rw [List.filter_filter]
      apply List.filter_congr
      intro y _
      by_cases h1 : y ∈ acc <;> by_cases h2 : y = x <;>
        simp [h1, h2, List.mem_append]

lemma filesChangedOf_eq_dedupFS (d : List Char) :
    filesChangedOf d = dedupFS (extractNewPaths d) := by
  unfold filesChangedOf
  rw [foldl_dedupAppend]
  simp

lemma String.mk_injective : Function.Injective String.mk := by
  intro a b h
  injection h

/-- C3: for every input diff string, the CodeArtifact produced by parse_diff
has diff_stats.files_changed equal to the length of its files_changed list,
that list is exactly the new-side header paths deduplicated in first-seen
order, it has no duplicates, and its members are exactly the extracted
new-side paths; none of this depends on the addition/deletion counting
pass. -/
theorem claim3_files_changed_invariant (d : String) (lang : Option Language) :
    (parse_diff d lang).diff_stats.files_changed
        = (parse_diff d lang).files_changed.length ∧
    (parse_diff d lang).files_changed
        = (dedupFS (extractNewPaths d.data)).map String.mk ∧
    (parse_diff d lang).files_changed.Nodup ∧
    ∀ p : String,
      p ∈ (parse_diff d lang).files_changed ↔ p.data ∈ extractNewPaths d.data := by
  refine ⟨?_, ?_, ?_, ?_⟩
  · show (filesChangedOf d.data).length
        = ((filesChangedOf d.data).map String.mk).length
    rw [List.length_map]
  · show (filesChangedOf d.data).map String.mk
        = (dedupFS (extractNewPaths d.data)).map String.mk
    rw [filesChangedOf_eq_dedupFS]
  · show ((filesChangedOf d.data).map String.mk).Nodup
    rw [filesChangedOf_eq_dedupFS]
    exact (nodup_dedupFS _).map String.mk_injective
  · intro p
    show p ∈ (filesChangedOf d.data).map String.mk ↔ _
    rw [filesChangedOf_eq_dedupFS, List.mem_map]
    constructor
    · rintro ⟨a, ha, rfl⟩
      exact (mem_dedupFS _ a).mp ha
    · intro hp
      exact ⟨p.data, (mem_dedupFS _ p.data).mpr hp, by cases p; rfl⟩

lemma add_not_del (l : List Char) (h : isAddLine l = true) : isDelLine l = false := by
  cases l with
  | nil => simp [isAddLine, beginsWith] at h
  | cons c cs =>
    simp only [isAddLine, beginsWith, Bool.and_eq_true, beq_iff_eq] at h
    obtain ⟨⟨hc, _⟩, _⟩ := h
    subst hc
    simp [isDelLine, beginsWith]

lemma foldl_countStep :
    ∀ (ls : List (List Char)) (a b : Nat),
      ls.foldl countStep (a, b) = (a + ls.countP isAddLine, b + ls.countP isDelLine) := by
  intro ls
  induction ls with
  | nil => intro a b; simp
  | cons l ls ih =>
    intro a b
    rw [List.foldl_cons]
    by_cases hA : isAddLine l
    · rw [show countStep (a, b) l = (a + 1, b) from by simp [countStep, hA], ih]
      have hD := add_not_del l hA
      rw [List.countP_cons, List.countP_cons]
      simp only [hA, hD, if_pos, if_neg, Bool.false_eq_true, if_false,
        Prod.mk.injEq]
      omega
    · by_cases hD : isDelLine l
      · rw [show countStep (a, b) l = (a, b + 1) from by simp [countStep, hA, hD], ih]
        rw [List.countP_cons, List.countP_cons]
        simp only [hA, hD, if_pos, Bool.false_eq_true, if_false,
          Prod.mk.injEq]
        omega
      · rw [show countStep (a, b) l = (a, b) from by simp [countStep, hA, hD], ih]
        rw [List.countP_cons, List.countP_cons]
        simp [hA, hD]

lemma diffCounts_eq (d : List Char) :
    diffCounts d = ((splitNl d).countP isAddLine, (splitNl d).countP isDelLine) := by
  unfold diffCounts
  rw [foldl_countStep]
  simp

/-- C7: parse_diff counts as additions exactly the lines beginning with a
plus that are not the three-plus header marker, and symmetrically counts
deletions for minus lines; on a diff without any header line the artifact
has zero files but the counts are still computed from the raw lines, and on
a one-file diff removing 2 lines and adding 3 the stats are additions 3,
deletions 2. -/
theorem claim7_addition_deletion_counts :
    (∀ (d : String) (lang : Option Language),
        (parse_diff d lang).diff_stats.additions
            = ((splitNl d.data).filter isAddLine).length ∧
        (parse_diff d lang).diff_stats.deletions
            = ((splitNl d.data).filter isDelLine).length) ∧
    (parse_diff
        "diff --git a/f.py b/f.py\n--- a/f.py\n+++ b/f.py\n@@ -1,3 +1,4 @@\n ctx\n-old1\n-old2\n+new1\n+new2\n+new3"
        none).diff_stats = ⟨3, 2, 1⟩ ∧
    (parse_diff "+a\n+b\n+c\n-x\n-y" none).files_changed = [] ∧
    (parse_diff "+a\n+b\n+c\n-x\n-y" none).diff_stats = ⟨3, 2, 0⟩ := by
  refine ⟨?_, by decide, by decide, by decide⟩
  intro d lang
  constructor
  · show (diffCounts d.data).1 = _
    rw [diffCounts_eq, List.countP_eq_length_filter]
  · show (diffCounts d.data).2 = _
    rw [diffCounts_eq]
    simp [List.countP_eq_length_filter]

lemma length_addedLinesCore (d : List Char) :
    (addedLinesCore d).length = (splitNl d).countP isAddLine := by
  unfold addedLinesCore
  induction splitNl d with
  | nil => simp
  | cons l ls ih =>
    rw [List.filterMap_cons, List.countP_cons]
    by_cases hA : isAddLine l
    · simp [hA]
      simpa using ih
    · simp [hA]
      simpa using ih

/-- C9: extract_added_content and parse_diff select the same lines, so the
number of added lines extracted equals the artifact's addition count. -/
theorem claim9_added_content_agrees (d : String) (lang : Option Language) :
    (addedLines d).length = (parse_diff d lang).diff_stats.additions := by
  show (addedLines d).length = (diffCounts d.data).1
  rw [diffCounts_eq]
  unfold addedLines
  rw [List.length_map, length_addedLinesCore]

/-- C8: every line extract_added_content keeps is an added line with its
leading plus stripped, no kept line begins with the three-plus marker (in
particular none equals a three-plus file header), and the result is the
empty string when the diff has no added lines. -/
theorem claim8_added_content (d : String) :
    (addedLinesCore d.data = [] → extract_added_content d = "") ∧
    ∀ l ∈ addedLinesCore d.data,
      beginsWith "+++".data l = false ∧
      (∀ p : List Char, l ≠ "+++ b/".data ++ p) ∧
      ∃ orig ∈ splitNl d.data,
        beginsWith "+".data orig = true ∧ beginsWith "+++".data orig = false ∧
        l = orig.drop 1 := by
  constructor
  · intro h
    unfold extract_added_content
    rw [h]
    rfl
  · intro l hl
    obtain ⟨orig, horig, hsome⟩ := List.mem_filterMap.mp hl
    by_cases hA : isAddLine orig
    · rw [if_pos hA] at hsome
      injection hsome with hsome
      subst hsome
      simp only [isAddLine, Bool.and_eq_true, Bool.not_eq_true'] at hA
      obtain ⟨hplus, hnot3⟩ := hA
      cases orig with
      | nil => simp [beginsWith] at hplus
      | cons c cs =>
        simp only [beginsWith, Bool.and_eq_true, beq_iff_eq] at hplus
        obtain ⟨hc, _⟩ := hplus
        subst hc
        have hcs : beginsWith "+++".data cs = false := by
          by_contra hcon
          rw [Bool.not_eq_false] at hcon
          cases cs with
          | nil => simp [beginsWith] at hcon
          | cons c2 cs2 =>
            cases cs2 with
            | nil => simp [beginsWith] at hcon
            | cons c3 cs3 =>
              simp only [beginsWith, Bool.and_eq_true, beq_iff_eq] at hcon
              obtain ⟨h2, h3, _⟩ := hcon
              subst h2; subst h3
              simp [beginsWith] at hnot3
        refine ⟨hcs, ?_, ⟨'+' :: cs, horig, ?_, hnot3, rfl⟩⟩
        · intro p hp
          subst hp
          simp [beginsWith] at hcs
        · simp [beginsWith]
    · rw [if_neg hA] at hsome
      exact absurd hsome (by simp)

theorem claim8_added_content_witness :
    extract_added_content "abc" = "" ∧
    beginsWith "+++".data "x".data = false := by
  refine ⟨(claim8_added_content "abc").1 (by decide), ?_⟩
  exact ((claim8_added_content "+x").2 "x".data (by decide)).1

lemma updateCount_ne_nil (counts : List (Language × Nat)) (lang : Language)
    (w : Nat) : updateCount counts lang w ≠ [] := by
  cases counts with
  | nil => simp [updateCount]
  | cons p rest =>
    obtain ⟨k, v⟩ := p
    simp only [updateCount]
    split <;> simp

lemma primaryStep_preserve (L : Language) (hL : L ≠ Language.other)
    (f : List Char)
    (hf : detectLanguageCore f = L ∨ detectLanguageCore f = Language.other)
    (counts : List (Language × Nat))
    (h : counts = [] ∨ ∃ v, counts = [(L, v)]) :
    primaryStep counts f = [] ∨ ∃ v, primaryStep counts f = [(L, v)] := by
  simp only [primaryStep]
  rcases hf with hf | hf
  · rw [hf, if_neg hL]
    rcases h with h | ⟨v, h⟩
    · subst h
      exact Or.inr ⟨_, rfl⟩
    · subst h
      refine Or.inr
        ⟨v + (if (if '.' ∈ f then extOf f else []) ∈ priorityExtensions
          then 2 else 1), ?_⟩
      simp [updateCount]
  · rw [hf, if_pos rfl]
    exact h

lemma foldl_primaryStep_preserve (L : Language) (hL : L ≠ Language.other) :
    ∀ (files : List (List Char)) (counts : List (Language × Nat)),
      (∀ f ∈ files,
        detectLanguageCore f = L ∨ detectLanguageCore f = Language.other) →
      (counts = [] ∨ ∃ v, counts = [(L, v)]) →
      (files.foldl primaryStep counts = []
        ∨ ∃ v, files.foldl primaryStep counts = [(L, v)]) := by
  intro files
  induction files with
  | nil => intro counts _ h; simpa using h
  | cons f fs ih =>
    intro counts hall h
    rw [List.foldl_cons]
    exact ih _ (fun g hg => hall g (List.mem_cons_of_mem _ hg))
      (primaryStep_preserve L hL f (hall f (List.mem_cons_self _ _)) counts h)

lemma primaryStep_ne_nil_of_ne_nil (counts : List (Language × Nat))
    (f : List Char) (h : counts ≠ []) : primaryStep counts f ≠ [] := by
  simp only [primaryStep]
  split
  · exact h
  · exact updateCount_ne_nil _ _ _

lemma primaryStep_ne_nil_of_detect (counts : List (Language × Nat))
    (f : List Char) (h : detectLanguageCore f ≠ Language.other) :
    primaryStep counts f ≠ [] := by
  simp only [primaryStep]
  rw [if_neg h]
  exact updateCount_ne_nil _ _ _

lemma foldl_primaryStep_ne_nil :
    ∀ (files : List (List Char)) (counts : List (Language × Nat)),
      counts ≠ [] → files.foldl primaryStep counts ≠ [] := by
  intro files
  induction files with
  | nil => intro counts h; simpa using h
  | cons f fs ih =>
    intro counts h
    rw [List.foldl_cons]
    exact ih _ (primaryStep_ne_nil_of_ne_nil counts f h)

lemma foldl_primaryStep_ne_nil_of_mem :
    ∀ (files : List (List Char)) (counts : List (Language × Nat))
      (f : List Char), f ∈ files → detectLanguageCore f ≠ Language.other →
      files.foldl primaryStep counts ≠ [] := by
  intro files
  induction files with
  | nil => intro counts f hf; exact absurd hf (List.not_mem_nil f)
  | cons g gs ih =>
    intro counts f hf hdet
    rw [List.foldl_cons]
    rcases List.mem_cons.mp hf with hf | hf
    · subst hf
      exact foldl_primaryStep_ne_nil gs _
        (primaryStep_ne_nil_of_detect counts f hdet)
    · exact ih _ f hf hdet

lemma foldl_primaryStep_all_other :
    ∀ (files : List (List Char)) (counts : List (Language × Nat)),
      (∀ f ∈ files, detectLanguageCore f = Language.other) →
      files.foldl primaryStep counts = counts := by
  intro files
  induction files with
  | nil => intro counts _; rfl
  | cons f fs ih =>
    intro counts hall
    rw [List.foldl_cons]
    have hstep : primaryStep counts f = counts := by
      simp only [primaryStep]
      rw [hall f (List.mem_cons_self _ _), if_pos rfl]
    rw [hstep]
    exact ih _ (fun g hg => hall g (List.mem_cons_of_mem _ hg))

/-- C6: for a non-empty file list whose mapped files all share one language
(a single dominant extension), detect_primary_language returns that
language; the empty list and lists of only unmapped files give OTHER; and
with the priority weighting the list App.tsx, Button.tsx, package.json,
tsconfig.json yields typescript. -/
theorem claim6_primary_language :
    (∀ (files : List String) (L : Language),
        files ≠ [] → L ≠ Language.other →
        (∀ f ∈ files,
          detect_language f = L ∨ detect_language f = Language.other) →
        (∃ f ∈ files, detect_language f = L) →
        detect_primary_language files = L) ∧
    detect_primary_language [] = Language.other ∧
    (∀ files : List String,
        (∀ f ∈ files, detect_language f = Language.other) →
        detect_primary_language files = Language.other) ∧
    detect_primary_language ["App.tsx", "Button.tsx", "package.json", "tsconfig.json"]
        = Language.typescript := by
  refine ⟨?_, by decide, ?_, by decide⟩
  · intro files L hne hL hall hex
    obtain ⟨f, hf, hdet⟩ := hex
    show detectPrimaryLanguageCore (files.map String.data) = L
    have hallc : ∀ g ∈ files.map String.data,
        detectLanguageCore g = L ∨ detectLanguageCore g = Language.other := by
      intro g hg
      obtain ⟨x, hx, rfl⟩ := List.mem_map.mp hg
      exact hall x hx
    have hpre := foldl_primaryStep_preserve L hL (files.map String.data) []
      hallc (Or.inl rfl)
    have hnonnil : (files.map String.data).foldl primaryStep [] ≠ [] := by
      refine foldl_primaryStep_ne_nil_of_mem _ _ f.data
        (List.mem_map_of_mem _ hf) ?_
      rw [show detectLanguageCore f.data = L from hdet]
      exact hL
    rcases hpre with hpre | ⟨v, hpre⟩
    · exact absurd hpre hnonnil
    · have hempty : (files.map String.data).isEmpty = false := by
        cases files with
        | nil => exact absurd rfl hne
        | cons x xs => rfl
      simp only [detectPrimaryLanguageCore, hempty, Bool.false_eq_true,
        if_false]
      rw [hpre]
      rfl
  · intro files hall
    show detectPrimaryLanguageCore (files.map String.data) = Language.other
    have hallc : ∀ g ∈ files.map String.data,
        detectLanguageCore g = Language.other := by
      intro g hg
      obtain ⟨x, hx, rfl⟩ := List.mem_map.mp hg
      exact hall x hx
    simp only [detectPrimaryLanguageCore]
    split
    · rfl
    · rw [foldl_primaryStep_all_other _ _ hallc]

theorem claim6_primary_language_witness :
    detect_primary_language ["a.py", "b.py", "notes.txt"] = Language.python := by
  refine claim6_primary_language.1 ["a.py", "b.py", "notes.txt"]
    Language.python (by decide) (by decide) ?_ ?_
  · intro f hf
    simp only [List.mem_cons, List.mem_singleton, List.not_mem_nil,
      or_false] at hf
    rcases hf with rfl | rfl | rfl
    · exact Or.inl (by decide)
    · exact Or.inl (by decide)
    · exact Or.inr (by decide)
  · exact ⟨"a.py", by decide, by decide⟩

/-- TestResults from models.py, with the dataclass field defaults. -/
structure TestResults where
  passed : Bool
  total : Int := 0
  failed : Int := 0
  skipped : Int := 0
  duration_ms : Int := 0
  output : String := ""
  framework : String := "unknown"
  deriving DecidableEq, Repr

/-- One issue dictionary as built by the lint/typecheck parsers, with the
dictionary-get defaults. -/
structure IssueEntry where
  file : String := ""
  line : Int := 0
  column : Int := 0
  code : String := ""
  message : String := ""
  deriving DecidableEq, Repr

/-- LintResults from models.py, with the dataclass field defaults. -/
structure LintResults where
  passed : Bool
  error_count : Int := 0
  warning_count : Int := 0
  errors : List IssueEntry := []
  tool : String := "unknown"
  deriving DecidableEq, Repr

/-- TypeCheckResults from models.py, with the dataclass field defaults. -/
structure TypeCheckResults where
  passed : Bool
  error_count : Int := 0
  errors : List IssueEntry := []
  tool : String := "unknown"
  deriving DecidableEq, Repr

/-- The possible outcomes of the subprocess.run call in the three runner
functions: a completed process with captured stdout/stderr and exit code, a
timeout, the executable missing on PATH (FileNotFoundError), or any other
exception. -/
inductive RunOutcome where
  | completed (stdoutText : String) (stderrText : String) (returncode : Int)
  | timedOut (stdoutText : String) (stderrText : String)
  | notFound
  | otherError (msg : String)
  deriving DecidableEq, Repr

/-- The generic fallback test parser _parse_generic_test_output from
analyzers/tests.py. -/
def parseGenericTestOutput (output : String) (returncode : Int)
    (framework : String) : TestResults :=
  { passed := returncode == 0, output := output, framework := framework }

/-- The outcome dispatch of run_tests from analyzers/tests.py, after the
command and framework have been resolved: a timeout builds a synthetic
output and parses it with exit code -1; a missing executable returns
passed False with an unchanged framework label; any other exception also
returns passed False; a completed run hands the combined output to the
framework parser. -/
def run_tests_outcome (parser : String → Int → String → TestResults)
    (cmd0 framework : String) (timeoutS : Int) (outcome : RunOutcome) :
    TestResults :=
  match outcome with
  | .completed so se rc => parser (so ++ "\n" ++ se) rc framework
  | .timedOut so se =>
    parser ("Test timeout after " ++ toString timeoutS ++ "s\n" ++ so ++ "\n" ++ se)
      (-1) framework
  | .notFound =>
    { passed := false
      output := "Test command not found: " ++ cmd0
      framework := framework }
  | .otherError msg =>
    { passed := false
      output := "Error running tests: " ++ msg
      framework := framework }

/-- The outcome dispatch of run_lint from analyzers/lint.py: a timeout is a
failure with one synthetic issue; a missing executable is reported as
passed with the tool label annotated; any other exception is a failure; a
completed run hands the combined output to the tool parser. -/
def run_lint_outcome (parser : String → Int → String → LintResults)
    (tool : String) (timeoutS : Int) (outcome : RunOutcome) : LintResults :=
  match outcome with
  | .completed so se rc => parser (so ++ "\n" ++ se) rc tool
  | .timedOut _ _ =>
    { passed := false
      error_count := 1
      errors := [{ message := "Lint timeout after " ++ toString timeoutS ++ "s" }]
      tool := tool }
  | .notFound =>
    { passed := true
      tool := tool ++ " (not found)" }
  | .otherError msg =>
    { passed := false
      error_count := 1
      errors := [{ message := "Error running linter: " ++ msg }]
      tool := tool }

/-- The outcome dispatch of run_typecheck from analyzers/typecheck.py, in
exact analogy with run_lint. -/
def run_typecheck_outcome (parser : String → Int → String → TypeCheckResults)
    (tool : String) (timeoutS : Int) (outcome : RunOutcome) : TypeCheckResults :=
  match outcome with
  | .completed so se rc => parser (so ++ "\n" ++ se) rc tool
  | .timedOut _ _ =>
    { passed := false
      error_count := 1
      errors := [{ message := "Type check timeout after " ++ toString timeoutS ++ "s" }]
      tool := tool }
  | .notFound =>
    { passed := true
      tool := tool ++ " (not found)" }
  | .otherError msg =>
    { passed := false
      error_count := 1
      errors := [{ message := "Error running type checker: " ++ msg }]
      tool := tool }

/-- C1 counterexample: for the tests family, a missing test executable
yields passed False and an unannotated framework label, contradicting the
claim that every family reports passed True with a label containing the
not-found annotation. -/
theorem claim1_not_found_counterexample :
    (run_tests_outcome parseGenericTestOutput "pytest" "pytest" 300
      RunOutcome.notFound).passed = false ∧
    (run_tests_outcome parseGenericTestOutput "pytest" "pytest" 300
      RunOutcome.notFound).framework = "pytest" ∧
    (run_tests_outcome parseGenericTestOutput "pytest" "pytest" 300
      RunOutcome.notFound).output = "Test command not found: pytest" :=
  ⟨rfl, rfl, rfl⟩

/-- C1 (amended): when the tool executable is not found on PATH, the lint
and typecheck families return passed True with the tool label annotated
not-found, while the tests family returns passed False with an output
naming the missing command and an unchanged framework label. -/
theorem claim1_not_found_behavior
    (tp : String → Int → String → TestResults)
    (lp : String → Int → String → LintResults)
    (kp : String → Int → String → TypeCheckResults)
    (cmd0 fw tool1 tool2 : String) (t1 t2 t3 : Int) :
    (run_tests_outcome tp cmd0 fw t1 RunOutcome.notFound).passed = false ∧
    (run_tests_outcome tp cmd0 fw t1 RunOutcome.notFound).output
        = "Test command not found: " ++ cmd0 ∧
    (run_tests_outcome tp cmd0 fw t1 RunOutcome.notFound).framework = fw ∧
    (run_lint_outcome lp tool1 t2 RunOutcome.notFound).passed = true ∧
    (run_lint_outcome lp tool1 t2 RunOutcome.notFound).tool
        = tool1 ++ " (not found)" ∧
    (run_typecheck_outcome kp tool2 t3 RunOutcome.notFound).passed = true ∧
    (run_typecheck_outcome kp tool2 t3 RunOutcome.notFound).tool
        = tool2 ++ " (not found)" :=
  ⟨rfl, rfl, rfl, rfl, rfl, rfl, rfl⟩

/-- Decimal value of a digit run. -/
def natOfDigits (ds : List Char) : Nat :=
  ds.foldl (fun n c => n * 10 + (c.toNat - 48)) 0

/-- One greedy digit group of the summary regular expression: takes every
leading digit, fails when there is none. -/
def parseDigits (cs : List Char) : Option (Nat × List Char) :=
  let ds := cs.takeWhile Char.isDigit
  if ds.isEmpty then none else some (natOfDigits ds, cs.drop ds.length)

/-- Matches a literal and returns the rest of the input. -/
def stripLit (lit cs : List Char) : Option (List Char) :=
  if beginsWith lit cs then some (cs.drop lit.length) else none

/-- The cargo-test summary regular expression of parse_cargo_test matched at
one position: the literal prefix, the ok-or-FAILED status, then three
greedy digit groups separated by their literal labels. -/
def cargoMatchAt (cs : List Char) : Option (Bool × Nat × Nat × Nat) := do
  let s1 ← stripLit "test result: ".data cs
  let (st, s2) ←
    match stripLit "ok".data s1 with
    | some r => some (true, r)
    | none =>
      match stripLit "FAILED".data s1 with
      | some r => some (false, r)
      | none => none
  let s3 ← stripLit ". ".data s2
  let (p, s4) ← parseDigits s3
  let s5 ← stripLit " passed; ".data s4
  let (f, s6) ← parseDigits s5
  let s7 ← stripLit " failed; ".data s6
  let (i, s8) ← parseDigits s7
  let _ ← stripLit " ignored".data s8
  pure (st, p, f, i)

/-- Python re.search for the cargo summary pattern: the match at the
leftmost matching position. -/
def cargoSearch : List Char → Option (Bool × Nat × Nat × Nat)
  | [] => none
  | c :: cs =>
    match cargoMatchAt (c :: cs) with
    | some r => some r
    | none => cargoSearch cs

/-- parse_cargo_test from analyzers/tests.py: when the textual summary is
found, passed mirrors the reported ok status and the three counts are taken
from the summary; otherwise the generic fallback applies. -/
def parse_cargo_test (output : String) (returncode : Int) (framework : String) :
    TestResults :=
  match cargoSearch output.data with
  | some (st, p, f, i) =>
    { passed := st
      total := ((p + f + i : Nat) : Int)
      failed := (f : Int)
      skipped := (i : Int)
      output := output
      framework := framework }
  | none => parseGenericTestOutput output returncode framework

/-- C2 counterexample: a cargo-test output whose summary reports ok with
zero failures, captured with exit code 1, still yields passed True,
contradicting the claim that passed holds only when the exit code is
zero. -/
theorem claim2_exit_code_counterexample :
    (parse_cargo_test "test result: ok. 3 passed; 0 failed; 0 ignored" 1
      "cargo test").passed = true ∧
    (parse_cargo_test "test result: ok. 3 passed; 0 failed; 0 ignored" 1
      "cargo test").failed = 0 ∧
    (1 : Int) ≠ 0 := by
  refine ⟨by decide, by decide, by decide⟩

/-- C2 (amended): the exit-code/failure-count equivalence holds for the
generic text fallback (passed iff exit code zero), but the structured
cargo-test path sets passed from the reported ok/FAILED status alone,
ignoring the exit code. -/
theorem claim2_passed_flag_behavior (output : String) (rc : Int)
    (fw : String) :
    (parseGenericTestOutput output rc fw).passed = (rc == 0) ∧
    (cargoSearch output.data = none →
      (parse_cargo_test output rc fw).passed = (rc == 0)) ∧
    (∀ st p f i, cargoSearch output.data = some (st, p, f, i) →
      (parse_cargo_test output rc fw).passed = st ∧
      (parse_cargo_test output rc fw).failed = (f : Int)) := by
  refine ⟨rfl, ?_, ?_⟩
  · intro h
    unfold parse_cargo_test
    rw [h]
    rfl
  · intro st p f i h
    unfold parse_cargo_test
    rw [h]
    exact ⟨rfl, rfl⟩

theorem claim2_passed_flag_witness :
    (parse_cargo_test "no summary here" 0 "cargo test").passed = true ∧
    (parse_cargo_test "test result: FAILED. 1 passed; 2 failed; 0 ignored" 0
      "cargo test").passed = false := by
  constructor
  · have h :=
      (claim2_passed_flag_behavior "no summary here" 0 "cargo test").2.1
        (by decide)
    rw [h]
    decide
  · have h :=
      ((claim2_passed_flag_behavior
        "test result: FAILED. 1 passed; 2 failed; 0 ignored" 0
        "cargo test").2.2 false 1 2 0 (by decide)).1
    rw [h]

/-- Python str.count of a nonempty pattern: non-overlapping occurrences
scanned from the left, with a fuel argument bounded by the input length so
that the recursion is structural. -/
def countSubFuel (pat : List Char) : List Char → Nat → Nat
  | _, 0 => 0
  | [], _ + 1 => 0
  | c :: rest, fuel + 1 =>
    if beginsWith pat (c :: rest) then
      1 + countSubFuel pat ((c :: rest).drop pat.length) fuel
    else countSubFuel pat rest fuel

/-- Python str.count over a character list. -/
def countSub (pat : String) (s : List Char) : Nat :=
  countSubFuel pat.data s s.length

/-- Python str.lower. -/
def lowerStr (s : String) : String :=
  String.mk (s.data.map Char.toLower)

/-- Python str.startswith on strings. -/
def sBegins (p s : String) : Bool :=
  beginsWith p.data s.data

/-- One decoded ruff JSON issue object, with the dictionary-get defaults
already applied. -/
structure RuffIssue where
  filename : String := ""
  row : Int := 0
  column : Int := 0
  code : String := ""
  message : String := ""
  deriving DecidableEq, Repr

/-- The entry dictionary parse_ruff builds from one ruff issue. -/
def ruffEntry (i : RuffIssue) : IssueEntry :=
  { file := i.filename
    line := i.row
    column := i.column
    code := i.code
    message := i.message }

/-- The ruff error classification: a code starting with E or with F is an
error, anything else a warning. -/
def isRuffError (i : RuffIssue) : Bool :=
  sBegins "E" i.code || sBegins "F" i.code

/-- parse_ruff from analyzers/lint.py. The first argument is the outcome of
json.loads on the output: some when the output is a valid JSON array of
issue objects, none when decoding raises JSONDecodeError, in which case the
text fallback counts case-sensitive occurrences of the words error and
warning in the whole output and takes passed from the exit code. -/
def parse_ruff (loadsResult : Option (List RuffIssue)) (output : String)
    (returncode : Int) (tool : String) : LintResults :=
  match loadsResult with
  | some issues =>
    let errors := (issues.filter isRuffError).map ruffEntry
    let warnings := (issues.filter (fun i => !isRuffError i)).map ruffEntry
    { passed := errors.length == 0
      error_count := (errors.length : Int)
      warning_count := (warnings.length : Int)
      errors := errors.take 50
      tool := tool }
  | none =>
    { passed := returncode == 0
      error_count := (countSub "error" output.data : Int)
      warning_count := (countSub "warning" output.data : Int)
      tool := tool }

/-- One decoded eslint message object, defaults applied. -/
structure ESLintMessage where
  line : Int := 0
  column : Int := 0
  ruleId : String := ""
  message : String := ""
  severity : Int := 0
  deriving DecidableEq, Repr

/-- One decoded eslint per-file result object, defaults applied. -/
structure ESLintFile where
  filePath : String := ""
  messages : List ESLintMessage := []
  deriving DecidableEq, Repr

/-- The entry dictionary parse_eslint builds from one message. -/
def eslintEntry (fr : ESLintFile) (m : ESLintMessage) : IssueEntry :=
  { file := fr.filePath
    line := m.line
    column := m.column
    code := m.ruleId
    message := m.message }

/-- The error entries of parse_eslint: severity 2 messages, in file order
then message order. -/
def eslintErrors (data : List ESLintFile) : List IssueEntry :=
  (data.map (fun fr =>
    (fr.messages.filter (fun m => m.severity == 2)).map (eslintEntry fr))).flatten

/-- The warning entries of parse_eslint: every non-severity-2 message. -/
def eslintWarnings (data : List ESLintFile) : List IssueEntry :=
  (data.map (fun fr =>
    (fr.messages.filter (fun m => !(m.severity == 2))).map (eslintEntry fr))).flatten

/-- parse_eslint from analyzers/lint.py. The first argument is the outcome
of json.loads on the output; the text fallback lowercases the whole output
before counting the words error and warning. -/
def parse_eslint (loadsResult : Option (List ESLintFile)) (output : String)
    (returncode : Int) (tool : String) : LintResults :=
  match loadsResult with
  | some data =>
    let errors := eslintErrors data
    let warnings := eslintWarnings data
    { passed := errors.length == 0
      error_count := (errors.length : Int)
      warning_count := (warnings.length : Int)
      errors := errors.take 50
      tool := tool }
  | none =>
    { passed := returncode == 0
      error_count := (countSub "error" (lowerStr output).data : Int)
      warning_count := (countSub "warning" (lowerStr output).data : Int)
      tool := tool }

/-- One decoded jest per-suite result object (start and end timestamps). -/
structure JestSuite where
  startTime : Int := 0
  endTime : Int := 0
  deriving DecidableEq, Repr

/-- The decoded jest aggregate JSON object; testResults is none when the
key is absent (Python then substitutes a one-element placeholder list). -/
structure JestData where
  success : Bool := false
  numTotalTests : Int := 0
  numFailedTests : Int := 0
  numPendingTests : Int := 0
  testResults : Option (List JestSuite) := none
  deriving DecidableEq, Repr

/-- The opening curly-brace character. -/
def jsonOpen : Char := Char.ofNat 123

/-- The closing curly-brace character. -/
def jsonClose : Char := Char.ofNat 125

/-- Index of the first occurrence of a character. -/
def firstIdxFrom (t : Char) : List Char → Option Nat
  | [] => none
  | c :: cs => if c = t then some 0 else (firstIdxFrom t cs).map (· + 1)

/-- Python str.find for one character: first index or -1. -/
def pyFind (t : Char) (cs : List Char) : Int :=
  match firstIdxFrom t cs with
  | some n => (n : Int)
  | none => -1

/-- Python str.rfind for one character: last index or -1. -/
def pyRFind (t : Char) (cs : List Char) : Int :=
  match firstIdxFrom t cs.reverse with
  | some n => (cs.length : Int) - 1 - (n : Int)
  | none => -1

/-- The TestResults record the structured jest path builds from the decoded
aggregate object and the first-suite duration. -/
def jestStructured (data : JestData) (dur : Int) (output fw : String) :
    TestResults :=
  { passed := data.success
    total := data.numTotalTests
    failed := data.numFailedTests
    skipped := data.numPendingTests
    duration_ms := dur
    output := output
    framework := fw }

/-- parse_jest from analyzers/tests.py: the slice between the first opening
brace and the last closing brace is decoded; a decode failure, a missing
brace pair, or an empty testResults array (an IndexError in the Python,
caught by the same handler) all route to the generic fallback; otherwise
the structured result is built from the decoded object, with duration zero
when the testResults key is absent. -/
def parse_jest (loads : String → Option JestData) (output : String)
    (returncode : Int) (framework : String) : TestResults :=
  let cs := output.data
  let jstart := pyFind jsonOpen cs
  let jend := pyRFind jsonClose cs + 1
  if jstart ≥ 0 ∧ jend > jstart then
    match loads (String.mk ((cs.drop jstart.toNat).take (jend - jstart).toNat)) with
    | some data =>
      match data.testResults with
      | some [] => parseGenericTestOutput output returncode framework
      | some (su :: _) =>
        jestStructured data (su.endTime - su.startTime) output framework
      | none => jestStructured data 0 output framework
    | none => parseGenericTestOutput output returncode framework
  else parseGenericTestOutput output returncode framework

/-- C5: a decoded JSON value in the expected shape makes each normalizer use
its structured parser (its result is independent of the output text and
exit code), while a failed decode routes to the text-heuristic fallback
(exit-code pass flag and word counting) and, the embedding being total,
never escapes the normalizer. -/
theorem claim5_json_routing :
    (∀ (issues : List RuffIssue) (o o' : String) (rc rc' : Int) (t : String),
        parse_ruff (some issues) o rc t = parse_ruff (some issues) o' rc' t ∧
        (parse_ruff (some issues) o rc t).error_count
            = (((issues.filter isRuffError).map ruffEntry).length : Int) ∧
        (parse_ruff (some issues) o rc t).passed
            = (((issues.filter isRuffError).map ruffEntry).length == 0)) ∧
    (∀ (o : String) (rc : Int) (t : String),
        (parse_ruff none o rc t).passed = (rc == 0) ∧
        (parse_ruff none o rc t).error_count
            = (countSub "error" o.data : Int) ∧
        (parse_ruff none o rc t).warning_count
            = (countSub "warning" o.data : Int)) ∧
    (∀ (data : List ESLintFile) (o o' : String) (rc rc' : Int) (t : String),
        parse_eslint (some data) o rc t = parse_eslint (some data) o' rc' t ∧
        (parse_eslint (some data) o rc t).passed
            = ((eslintErrors data).length == 0)) ∧
    (∀ (o : String) (rc : Int) (t : String),
        (parse_eslint none o rc t).passed = (rc == 0) ∧
        (parse_eslint none o rc t).error_count
            = (countSub "error" (lowerStr o).data : Int)) ∧
    (∀ (loads : String → Option JestData) (o : String) (rc : Int)
        (fw : String), (∀ s, loads s = none) →
        parse_jest loads o rc fw = parseGenericTestOutput o rc fw) ∧
    (∀ (loads : String → Option JestData) (o : String) (rc : Int)
        (fw : String) (d : JestData),
        pyFind jsonOpen o.data ≥ 0 →
        pyRFind jsonClose o.data + 1 > pyFind jsonOpen o.data →
        loads (String.mk ((o.data.drop (pyFind jsonOpen o.data).toNat).take
          (pyRFind jsonClose o.data + 1 - pyFind jsonOpen o.data).toNat))
            = some d →
        d.testResults = none →
        parse_jest loads o rc fw = jestStructured d 0 o fw) := by
  refine ⟨?_, ?_, ?_, ?_, ?_, ?_⟩
  · exact fun issues o o' rc rc' t => ⟨rfl, rfl, rfl⟩
  · exact fun o rc t => ⟨rfl, rfl, rfl⟩
  · exact fun data o o' rc rc' t => ⟨rfl, rfl⟩
  · exact fun o rc t => ⟨rfl, rfl⟩
  · intro loads o rc fw h
    simp only [parse_jest]
    split
    · rw [h]
    · rfl
  · intro loads o rc fw d h1 h2 h3 h4
    simp only [parse_jest]
    rw [if_pos ⟨h1, h2⟩, h3]
    obtain ⟨ds, dnt, dnf, dnp, dtr⟩ := d
    have h4x : dtr = none := h4
    subst h4x
    rfl

theorem claim5_json_routing_witness :
    parse_jest (fun _ => none) "nonsense output" 2 "jest"
        = parseGenericTestOutput "nonsense output" 2 "jest" ∧
    (parse_ruff none "error error" 0 "ruff").error_count = 2 := by
  constructor
  · exact claim5_json_routing.2.2.2.2.1 (fun _ => none) "nonsense output" 2
      "jest" (fun _ => rfl)
  · have h := (claim5_json_routing.2.1 "error error" 0 "ruff").2.1
    rw [h]
    decide

/-- CollectorOptions from collector.py: the three per-call run flags are
plain booleans defaulting to False (there is no tri-state unset value). -/
structure CollectorOptions where
  run_tests : Bool := false
  run_lint : Bool := false
  run_typecheck : Bool := false
  deriving DecidableEq, Repr

/-- The three auto-run configuration defaults of CertCodeConfig from
config.py. -/
structure CertCodeConfig where
  auto_run_tests : Bool := false
  auto_run_lint : Bool := false
  auto_run_typecheck : Bool := false
  deriving DecidableEq, Repr

/-- CodeVerification from models.py. -/
structure CodeVerification where
  parseable : Bool := true
  tests : Option TestResults := none
  lint : Option LintResults := none
  typecheck : Option TypeCheckResults := none
  deriving DecidableEq, Repr

/-- CodeCollector._check_parseable from collector.py: a stub that is
unconditionally true. -/
def check_parseable (_ : CodeArtifact) : Bool := true

/-- CodeCollector._build_verification from collector.py: each normalizer
runs exactly when the per-call flag OR the configuration default is set;
the three runner results are passed in, the runs themselves being
side-effecting. -/
def build_verification (opts : CollectorOptions) (cfg : CertCodeConfig)
    (artifact : CodeArtifact) (testsRun : TestResults) (lintRun : LintResults)
    (typecheckRun : TypeCheckResults) : CodeVerification :=
  { parseable := check_parseable artifact
    tests := if opts.run_tests || cfg.auto_run_tests then some testsRun else none
    lint := if opts.run_lint || cfg.auto_run_lint then some lintRun else none
    typecheck :=
      if opts.run_typecheck || cfg.auto_run_typecheck then some typecheckRun
      else none }

/-- C4 counterexample: with the per-call tests flag explicitly False and the
configuration default True, the tests normalizer still runs, so an explicit
per-call override does not win over the configuration default and the flag
is not tri-state. -/
theorem claim4_flag_or_counterexample :
    (build_verification ⟨false, false, false⟩ ⟨true, false, false⟩
        (parse_diff "" none) ⟨true, 0, 0, 0, 0, "", "pytest"⟩
        ⟨true, 0, 0, [], "ruff"⟩ ⟨true, 0, [], "mypy"⟩).tests
      = some ⟨true, 0, 0, 0, 0, "", "pytest"⟩ := by
  rfl

/-- C4 (amended): each run decision is the plain logical OR of the boolean
per-call flag and the configuration default; a true per-call flag always
forces the run, but a false per-call flag cannot suppress a true
configuration default, because the options are booleans, not tri-state. -/
theorem claim4_flag_or_behavior (opts : CollectorOptions)
    (cfg : CertCodeConfig) (a : CodeArtifact) (tr : TestResults)
    (lr : LintResults) (kr : TypeCheckResults) :
    ((build_verification opts cfg a tr lr kr).tests = none
        ↔ opts.run_tests = false ∧ cfg.auto_run_tests = false) ∧
    ((build_verification opts cfg a tr lr kr).tests = some tr
        ↔ (opts.run_tests || cfg.auto_run_tests) = true) ∧
    ((build_verification opts cfg a tr lr kr).lint = none
        ↔ opts.run_lint = false ∧ cfg.auto_run_lint = false) ∧
    ((build_verification opts cfg a tr lr kr).lint = some lr
        ↔ (opts.run_lint || cfg.auto_run_lint) = true) ∧
    ((build_verification opts cfg a tr lr kr).typecheck = none
        ↔ opts.run_typecheck = false ∧ cfg.auto_run_typecheck = false) ∧
    ((build_verification opts cfg a tr lr kr).typecheck = some kr
        ↔ (opts.run_typecheck || cfg.auto_run_typecheck) = true) := by
  refine ⟨?_, ?_, ?_, ?_, ?_, ?_⟩
  · by_cases h1 : opts.run_tests <;> by_cases h2 : cfg.auto_run_tests <;>
      simp [build_verification, h1, h2]
  · by_cases h1 : opts.run_tests <;> by_cases h2 : cfg.auto_run_tests <;>
      simp [build_verification, h1, h2]
  · by_cases h1 : opts.run_lint <;> by_cases h2 : cfg.auto_run_lint <;>
      simp [build_verification, h1, h2]
  · by_cases h1 : opts.run_lint <;> by_cases h2 : cfg.auto_run_lint <;>
      simp [build_verification, h1, h2]
  · by_cases h1 : opts.run_typecheck <;>
      by_cases h2 : cfg.auto_run_typecheck <;>
      simp [build_verification, h1, h2]
  · by_cases h1 : opts.run_typecheck <;>
      by_cases h2 : cfg.auto_run_typecheck <;>
      simp [build_verification, h1, h2]

/-- TestResults.success_rate from models.py, with exact rational division in
place of Python float division: a zero total short-circuits to 1.0 before
any division happens. -/
def success_rate (r : TestResults) : ℚ :=
  if r.total = 0 then 1
  else ((r.total : ℚ) - (r.failed : ℚ) - (r.skipped : ℚ)) / (r.total : ℚ)

/-- C10: success_rate never divides by zero: a zero total returns 1, and a
positive total returns (total - failed - skipped) / total. -/
theorem claim10_success_rate (r : TestResults) :
    (r.total = 0 → success_rate r = 1) ∧
    (0 < r.total →
      success_rate r
        = ((r.total : ℚ) - (r.failed : ℚ) - (r.skipped : ℚ)) / (r.total : ℚ)) := by
  constructor
  · intro h
    unfold success_rate
    rw [if_pos h]
  · intro h
    unfold success_rate
    rw [if_neg (by omega)]

theorem claim10_success_rate_witness :
    success_rate ⟨true, 0, 0, 0, 0, "", "pytest"⟩ = 1 ∧
    success_rate ⟨true, 4, 1, 1, 0, "", "pytest"⟩ = 1 / 2 := by
  constructor
  · exact (claim10_success_rate ⟨true, 0, 0, 0, 0, "", "pytest"⟩).1 rfl
  · have h := (claim10_success_rate ⟨true, 4, 1, 1, 0, "", "pytest"⟩).2
      (by norm_num)
    rw [h]
    norm_num

end CertCode
